import Mathlib

/-!
A shallow embedding of the core dataflow runtime of the thingflow-python
repository (src/antevents/base.py and src/antevents/linq/take.py), together
with theorems settling the claims about it.

Modelling conventions:
* Python callback functions (the `on_next`/`on_completed`/`on_error` methods
  stored in a `_Subscription`) are represented by natural-number identifiers.
  Invoking a callback is mediated by an environment `CbEnv` which says, for
  each callback id and argument, whether the call returns normally (`none`)
  or raises an exception (`some e`).  Bound methods in Python compare by
  (function, receiver) equality, so equal ids model equal bound methods and
  the namedtuple `_Subscription` gets the derived decidable equality.
* Python exceptions are values of `PyErr`; `isFatal` marks the subclasses of
  `FatalError`.  A function that can raise returns its raised exception in an
  `Option PyErr` (or `Except PyErr`) component of its result; mutations made
  before the raise persist in the returned state, as they do on a Python
  object.
* Events are opaque payloads, modelled as `Int`.
-/

namespace AntEvents

/-- Exception values of the Python code.  The constructors mirror the
exception classes in src/antevents/base.py and src/antevents/linq/take.py,
plus the built-in Python exceptions the code can raise. -/
inductive PyErr where
  | topicAlreadyClosed
  | unknownTopic
  | invalidTopic
  | excInDispatch (inner : PyErr)
  | scheduleError
  | argumentOutOfRange
  | fatalOther (code : Nat)
  | stopIteration
  | valueError
  | keyError
  | otherExc (code : Nat)
deriving DecidableEq, Repr

/-- Which exceptions are instances of `FatalError` (base.py lines 94-117,
take.py line 4, base.py line 701). -/
def isFatal : PyErr → Bool
  | .topicAlreadyClosed => true
  | .unknownTopic => true
  | .invalidTopic => true
  | .excInDispatch _ => true
  | .scheduleError => true
  | .argumentOutOfRange => true
  | .fatalOther _ => true
  | .stopIteration => false
  | .valueError => false
  | .keyError => false
  | .otherExc _ => false

/-- The `_Subscription` namedtuple (base.py lines 122-124): three callback
ids, the subscriber id and the subscriber-side topic.  The callbacks are
resolved at subscription time, as in the source. -/
structure Subscription where
  on_next : Nat
  on_completed : Nat
  on_error : Nat
  subscriber : Nat
  sub_topic : String
deriving DecidableEq, Repr

/-- The mutable state of a `Publisher` (base.py lines 133-147):
`__topics__`, `__subscribers__`, `__closed_topics__`,
`__unschedule_hook__` and `__enqueue_fn__` (hook and enqueue function are
identified by opaque ids). -/
structure PubState where
  topics : List String
  subscribers : List (String × List Subscription)
  closed_topics : List String
  unschedule_hook : Option Nat
  enqueue_fn : Option Nat
deriving DecidableEq, Repr

/-- Dictionary read `self.__subscribers__[topic]` (first binding wins; the
dict has one binding per key in every reachable state). -/
def lookupTopic (m : List (String × List Subscription)) (t : String) :
    Option (List Subscription) :=
  match m with
  | [] => none
  | (k, v) :: rest => if k = t then some v else lookupTopic rest t

/-- Dictionary write `self.__subscribers__[topic] = v` to an existing key. -/
def setTopic (m : List (String × List Subscription)) (t : String)
    (v : List Subscription) : List (String × List Subscription) :=
  match m with
  | [] => []
  | (k, w) :: rest =>
      if k = t then (k, v) :: rest else (k, w) :: setTopic rest t v

/-- Dictionary delete `del self.__subscribers__[topic]`. -/
def delTopic : List (String × List Subscription) → String →
    List (String × List Subscription)
  | [], _ => []
  | (k, v) :: rest, t =>
      if k = t then delTopic rest t else (k, v) :: delTopic rest t

/-- Python `list.remove(x)`: drop the first element equal to `x`.  The caller
checks membership first, because `list.remove` on a missing element raises
`ValueError`. -/
def eraseFirst : List Subscription → Subscription → List Subscription
  | [], _ => []
  | x :: xs, s => if x = s then xs else x :: eraseFirst xs s

/-- One callback invocation, as performed (or enqueued) by the dispatch
methods: which callback id is called and with which argument. -/
inductive Call where
  | next (cb : Nat) (x : Int)
  | completed (cb : Nat)
  | error (cb : Nat) (e : PyErr)
deriving DecidableEq, Repr

/-- Behaviour of the subscriber callbacks: for each callback id and argument,
`none` means the call returns normally, `some e` that it raises `e`. -/
structure CbEnv where
  onNext : Nat → Int → Option PyErr
  onCompleted : Nat → Option PyErr
  onError : Nat → PyErr → Option PyErr

/-- Perform one callback invocation under the environment. -/
def runCall (env : CbEnv) : Call → Option PyErr
  | .next cb x => env.onNext cb x
  | .completed cb => env.onCompleted cb
  | .error cb e => env.onError cb e

/-- The inline dispatch loop with its surrounding
`try ... except FatalError: raise / except Exception as e: raise ExcInDispatch(...)`
(base.py lines 244-251, 269-276, 295-302).  Returns the calls performed, in
order, and the exception propagated out of the loop, if any: a `FatalError`
raised by a callback propagates unchanged, any other exception is wrapped in
`ExcInDispatch`. -/
def runCalls (env : CbEnv) : List Call → List Call × Option PyErr
  | [] => ([], none)
  | c :: rest =>
      match runCall env c with
      | none =>
          let r := runCalls env rest
          (c :: r.1, r.2)
      | some e => ([c], some (if isFatal e then e else .excInDispatch e))

/-- Result of a dispatch method: the publisher state after the call, the
exception raised (if any), the callback calls performed inline, the calls
posted through the enqueue function, and whether the unschedule hook fired. -/
structure DOut where
  state : PubState
  err : Option PyErr
  invoked : List Call
  enqueued : List Call
  hookFired : Bool
deriving Repr

/-- Result of `_close_topic`: the new state and whether the unschedule hook
was invoked. -/
structure CloseOut where
  state : PubState
  hookFired : Bool
deriving Repr

/-- `Publisher._close_topic` (base.py lines 209-222): remove the topic from
the subscriber map and the open-topic set, record it as closed, and when the
subscriber map has become empty and an unschedule hook is installed, invoke
the hook and clear both the hook and the enqueue function. -/
def closeTopic (p : PubState) (topic : String) : CloseOut :=
  let subs' := delTopic p.subscribers topic
  let p1 : PubState :=
    { p with subscribers := subs',
             topics := p.topics.erase topic,
             closed_topics := p.closed_topics ++ [topic] }
  if subs'.length = 0 ∧ p.unschedule_hook.isSome = true then
    { state := { p1 with unschedule_hook := none, enqueue_fn := none },
      hookFired := true }
  else
    { state := p1, hookFired := false }

/-- `Publisher._dispatch_next` (base.py lines 224-251). -/
def dispatchNext (env : CbEnv) (p : PubState) (x : Int)
    (topic : Option String) : DOut :=
  let t := topic.getD "default"
  match lookupTopic p.subscribers t with
  | none =>
      if t ∈ p.closed_topics then
        ⟨p, some .topicAlreadyClosed, [], [], false⟩
      else
        ⟨p, some .unknownTopic, [], [], false⟩
  | some subs =>
      if subs.length = 0 then ⟨p, none, [], [], false⟩
      else
        match p.enqueue_fn with
        | some _ =>
            ⟨p, none, [], subs.map (fun s => Call.next s.on_next x), false⟩
        | none =>
            let r := runCalls env (subs.map (fun s => Call.next s.on_next x))
            ⟨p, r.2, r.1, [], false⟩

/-- `Publisher._dispatch_completed` (base.py lines 253-277): dispatch the
completion to every subscriber (inline or through the enqueue function) and
then close the topic.  If an inline callback raises, the exception propagates
and the topic is NOT closed. -/
def dispatchCompleted (env : CbEnv) (p : PubState)
    (topic : Option String) : DOut :=
  let t := topic.getD "default"
  match lookupTopic p.subscribers t with
  | none =>
      if t ∈ p.closed_topics then
        ⟨p, some .topicAlreadyClosed, [], [], false⟩
      else
        ⟨p, some .unknownTopic, [], [], false⟩
  | some subs =>
      match p.enqueue_fn with
      | some _ =>
          let c := closeTopic p t
          ⟨c.state, none, [],
           subs.map (fun s => Call.completed s.on_completed), c.hookFired⟩
      | none =>
          let r := runCalls env (subs.map (fun s => Call.completed s.on_completed))
          match r.2 with
          | some e => ⟨p, some e, r.1, [], false⟩
          | none =>
              let c := closeTopic p t
              ⟨c.state, none, r.1, [], c.hookFired⟩

/-- `Publisher._dispatch_error` (base.py lines 279-303): same discipline as
`_dispatch_completed`, delivering the error value to the `on_error`
callbacks. -/
def dispatchError (env : CbEnv) (p : PubState) (e : PyErr)
    (topic : Option String) : DOut :=
  let t := topic.getD "default"
  match lookupTopic p.subscribers t with
  | none =>
      if t ∈ p.closed_topics then
        ⟨p, some .topicAlreadyClosed, [], [], false⟩
      else
        ⟨p, some .unknownTopic, [], [], false⟩
  | some subs =>
      match p.enqueue_fn with
      | some _ =>
          let c := closeTopic p t
          ⟨c.state, none, [],
           subs.map (fun s => Call.error s.on_error e), c.hookFired⟩
      | none =>
          let r := runCalls env (subs.map (fun s => Call.error s.on_error e))
          match r.2 with
          | some e2 => ⟨p, some e2, r.1, [], false⟩
          | none =>
              let c := closeTopic p t
              ⟨c.state, none, r.1, [], c.hookFired⟩

/-- `Publisher.subscribe` (base.py lines 150-192), with the callbacks already
resolved into a `Subscription` (the source resolves them at subscription
time via `getattr`).  Checks the publish topic, then appends the subscription
to a copy of the topic's list. -/
def subscribe (p : PubState) (sub : Subscription) (pub_topic : String) :
    PubState × Option PyErr :=
  if pub_topic ∈ p.topics then
    match lookupTopic p.subscribers pub_topic with
    | some lst =>
        ({ p with subscribers := setTopic p.subscribers pub_topic (lst ++ [sub]) },
         none)
    | none => (p, some .keyError)
  else
    (p, some .invalidTopic)

/-- The `dispose` closure returned by `Publisher.subscribe` (base.py lines
183-192): copy the topic's subscriber list, `list.remove` the subscription
from the copy, and install the copy.  A missing topic key raises `KeyError`;
`list.remove` on an absent subscription raises `ValueError`; either way the
subscriber lists are left unchanged. -/
def dispose (p : PubState) (pub_topic : String) (sub : Subscription) :
    PubState × Option PyErr :=
  match lookupTopic p.subscribers pub_topic with
  | none => (p, some .keyError)
  | some lst =>
      if sub ∈ lst then
        ({ p with subscribers := setTopic p.subscribers pub_topic (eraseFirst lst sub) },
         none)
      else
        (p, some .valueError)

/-- One operation on a publisher: the public `subscribe`, the `dispose`
closure, or one of the three dispatch methods.  Used to reason about an
arbitrary sequence of operations on a publisher. -/
inductive Op where
  | subscribeOp (sub : Subscription) (pub_topic : String)
  | disposeOp (pub_topic : String) (sub : Subscription)
  | nextOp (env : CbEnv) (x : Int) (topic : Option String)
  | completedOp (env : CbEnv) (topic : Option String)
  | errorOp (env : CbEnv) (e : PyErr) (topic : Option String)

/-- The publisher state after one operation (exceptions leave the state the
operation produced up to the raise, as in Python). -/
def step (p : PubState) : Op → PubState
  | .subscribeOp s t => (subscribe p s t).1
  | .disposeOp t s => (dispose p t s).1
  | .nextOp env x t => (dispatchNext env p x t).state
  | .completedOp env t => (dispatchCompleted env p t).state
  | .errorOp env e t => (dispatchError env p e t).state

/-- Whether one operation invoked the unschedule hook. -/
def opFired (p : PubState) : Op → Bool
  | .subscribeOp _ _ => false
  | .disposeOp _ _ => false
  | .nextOp _ _ _ => false
  | .completedOp env t => (dispatchCompleted env p t).hookFired
  | .errorOp env e t => (dispatchError env p e t).hookFired

/-- Run a sequence of operations. -/
def run (p : PubState) : List Op → PubState
  | [] => p
  | op :: ops => run (step p op) ops

/-- How many times the unschedule hook fires along a sequence of
operations. -/
def fires (p : PubState) : List Op → Nat
  | [] => 0
  | op :: ops => (if opFired p op then 1 else 0) + fires (step p op) ops

/-- The topic has been closed on this publisher: it is recorded in
`__closed_topics__` and absent from the `__subscribers__` map. -/
def closedAt (T : String) (p : PubState) : Prop :=
  T ∈ p.closed_topics ∧ lookupTopic p.subscribers T = none

/-- The state of a `Filter` (base.py lines 349-390) as needed for its
`on_next` method: its own publisher state, the upstream publisher's state,
and the upstream topic and subscription on which its captured `dispose`
closure acts. -/
structure FilterState where
  pub : PubState
  up : PubState
  upTopic : String
  upSub : Subscription
deriving Repr

/-- Result of `Filter.on_next`: the filter state afterwards, the exception
propagated inline (if any), and the downstream calls performed by the
error-path `_dispatch_error`. -/
structure FOut where
  fs : FilterState
  err : Option PyErr
  downCalls : List Call
deriving Repr

/-- `Filter.on_next` for a filter constructed with a user `on_next` hook and
no user `on_error` hook (base.py lines 360-372, 374-378).  The hook
`self._on_next(self, x)` is modelled as a function from the filter's own
publisher state to a new state plus an optional raised exception (the event
is folded into the hook).  On a `FatalError` from the hook the exception
propagates; on any other exception the filter calls `self.on_error(e)`
(which, with no user error hook, is `self._dispatch_error(e)`) and then
`self.dispose()` on the upstream subscription, swallowing the original
exception. -/
def filterOnNext (env : CbEnv) (hook : PubState → PubState × Option PyErr)
    (fs : FilterState) : FOut :=
  match hook fs.pub with
  | (pub1, none) => ⟨{ fs with pub := pub1 }, none, []⟩
  | (pub1, some e) =>
      if isFatal e then ⟨{ fs with pub := pub1 }, some e, []⟩
      else
        let d := dispatchError env pub1 e none
        match d.err with
        | some e2 => ⟨{ fs with pub := d.state }, some e2, d.invoked⟩
        | none =>
            let r := dispose fs.up fs.upTopic fs.upSub
            ⟨{ fs with pub := d.state, up := r.1 }, r.2, d.invoked⟩

/-- Result of an `_observe` call: the publisher state, the exception
propagated (if any), the Python return value (`some b` for `return b`,
`none` when the function fell off the end and returned `None`, and also
`none` when an exception was raised), and the callback calls performed or
enqueued. -/
structure ObserveOut where
  state : PubState
  err : Option PyErr
  ret : Option Bool
  calls : List Call
  enqueued : List Call
deriving Repr

/-- `IterableAsPublisher._observe` (base.py lines 444-459).  The result of
`self.iterable.__next__()` is passed in as an `Except PyErr Int`:
`.ok x` for an element, `.error .stopIteration` for the end of the
iteration, `.error e` for a raised exception.  `StopIteration` dispatches
completion and returns `False`; a `FatalError` (from `__next__` or from the
dispatch) re-raises after `_close`; any other exception from `__next__`
dispatches it as an in-band error and returns `False`.  `_close` is a no-op
in the base class. -/
def iterObserve (env : CbEnv) (r : Except PyErr Int) (p : PubState) :
    ObserveOut :=
  match r with
  | .ok x =>
      let d := dispatchNext env p x none
      match d.err with
      | none => ⟨d.state, none, some true, d.invoked, d.enqueued⟩
      | some e =>
          if isFatal e then ⟨d.state, some e, none, d.invoked, d.enqueued⟩
          else
            let d2 := dispatchError env d.state e none
            ⟨d2.state, d2.err, if d2.err.isNone then some false else none,
             d.invoked ++ d2.invoked, d.enqueued ++ d2.enqueued⟩
  | .error e =>
      if e = .stopIteration then
        let d := dispatchCompleted env p none
        ⟨d.state, d.err, if d.err.isNone then some false else none,
         d.invoked, d.enqueued⟩
      else if isFatal e then
        ⟨p, some e, none, [], []⟩
      else
        let d := dispatchError env p e none
        ⟨d.state, d.err, if d.err.isNone then some false else none,
         d.invoked, d.enqueued⟩

/-- The state of a `FunctionIteratorAsPublisher` (base.py lines 496-502):
its publisher state, the current `value` and the `first` flag.  The type of
the iterated state is a parameter. -/
structure FIState (σ : Type) where
  pub : PubState
  value : σ
  first : Bool
deriving Repr

/-- Result of `FunctionIteratorAsPublisher._observe` and of its try-block
body, on the same convention as `ObserveOut`. -/
structure FIOut (σ : Type) where
  state : FIState σ
  err : Option PyErr
  ret : Option Bool
  calls : List Call
  enqueued : List Call
deriving Repr

/-- The body of the `try:` block of `FunctionIteratorAsPublisher._observe`
(base.py lines 505-523).  `condition`, `iterate` and `result_selector` are
user functions that may raise, so they return `Except PyErr`.  The `err`
field records the exception escaping the block, with the state mutations
made before the raise (`self.first = False`, `self.value = ...`) kept.
Note the source has no `return` statement on the non-first advancing path,
so that path yields `ret = none` (Python `None`). -/
def fiBody {σ : Type} (env : CbEnv) (condition : σ → Except PyErr Bool)
    (iterate : σ → Except PyErr σ) (result_selector : σ → Except PyErr Int)
    (s : FIState σ) : FIOut σ :=
  if s.first then
    let s1 : FIState σ := { s with first := false }
    match condition s.value with
    | .error e => ⟨s1, some e, none, [], []⟩
    | .ok true =>
        match result_selector s.value with
        | .error e => ⟨s1, some e, none, [], []⟩
        | .ok r =>
            let d := dispatchNext env s1.pub r none
            match d.err with
            | some e => ⟨{ s1 with pub := d.state }, some e, none, d.invoked, d.enqueued⟩
            | none => ⟨{ s1 with pub := d.state }, none, some true, d.invoked, d.enqueued⟩
    | .ok false =>
        let d := dispatchCompleted env s1.pub none
        match d.err with
        | some e => ⟨{ s1 with pub := d.state }, some e, none, d.invoked, d.enqueued⟩
        | none => ⟨{ s1 with pub := d.state }, none, some false, d.invoked, d.enqueued⟩
  else
    match condition s.value with
    | .error e => ⟨s, some e, none, [], []⟩
    | .ok true =>
        match iterate s.value with
        | .error e => ⟨s, some e, none, [], []⟩
        | .ok v =>
            let s1 : FIState σ := { s with value := v }
            match result_selector v with
            | .error e => ⟨s1, some e, none, [], []⟩
            | .ok r =>
                let d := dispatchNext env s1.pub r none
                match d.err with
                | some e => ⟨{ s1 with pub := d.state }, some e, none, d.invoked, d.enqueued⟩
                | none => ⟨{ s1 with pub := d.state }, none, none, d.invoked, d.enqueued⟩
    | .ok false =>
        let d := dispatchCompleted env s.pub none
        match d.err with
        | some e => ⟨s, some e, none, d.invoked, d.enqueued⟩
        | none => ⟨{ s with pub := d.state }, none, some false, d.invoked, d.enqueued⟩

/-- `FunctionIteratorAsPublisher._observe` (base.py lines 504-526): run the
try-block body; on any exception (`except Exception`, which includes every
`FatalError`), deliver it downstream with `self._dispatch_error(e)` and
return `False`.  An exception raised by `_dispatch_error` itself propagates. -/
def fiObserve {σ : Type} (env : CbEnv) (condition : σ → Except PyErr Bool)
    (iterate : σ → Except PyErr σ) (result_selector : σ → Except PyErr Int)
    (s : FIState σ) : FIOut σ :=
  let b := fiBody env condition iterate result_selector s
  match b.err with
  | none => b
  | some e =>
      let d := dispatchError env b.state.pub e none
      { state := { b.state with pub := d.state },
        err := d.err,
        ret := if d.err.isNone then some false else none,
        calls := b.calls ++ d.invoked,
        enqueued := b.enqueued ++ d.enqueued }

/-- The possible return values of `take` (take.py lines 52-84): either the
empty publisher produced by `Publisher.empty()` or a freshly constructed
`Filter`. -/
inductive TakeResult where
  | emptyPub
  | filterPub
deriving DecidableEq, Repr

/-- `take(this, count)` up to the choice of returned object (take.py lines
52-84): a negative count raises `ArgumentOutOfRangeException` before
anything is constructed; a zero count returns `Publisher.empty()`; otherwise
a `Filter` is constructed and returned. -/
def take (count : Int) : Except PyErr TakeResult :=
  if count < 0 then .error .argumentOutOfRange
  else if count = 0 then .ok .emptyPub
  else .ok .filterPub

/-- Modelled from the spec: `Publisher.empty()`, called by `take(0)`
(take.py line 67), is not defined anywhere under src/.  Per the spec,
"take(0) returns an empty publisher that immediately completes" and
"take(0) emits no events and completes immediately", so its `_observe`
dispatches completion on the default topic without emitting any `next`
event and reports that no more data is available. -/
def emptyObserve (env : CbEnv) (p : PubState) : ObserveOut :=
  let d := dispatchCompleted env p none
  ⟨d.state, d.err, if d.err.isNone then some false else none,
   d.invoked, d.enqueued⟩

/-- The scheduler state relevant to cancellation (base.py lines 709-733,
735-793): the `active_schedules` table (publisher id to handle id), the
handles on which `.cancel()` has been invoked, and whether the event loop
was asked to stop. -/
structure SchedState where
  active_schedules : List (Nat × Nat)
  cancelled : List Nat
  loop_stopped : Bool
deriving DecidableEq, Repr

/-- Table read `self.active_schedules[publisher]`. -/
def lookupSched (m : List (Nat × Nat)) (pid : Nat) : Option Nat :=
  match m with
  | [] => none
  | (k, v) :: rest => if k = pid then some v else lookupSched rest pid

/-- Table delete `del self.active_schedules[publisher]`. -/
def delSched : List (Nat × Nat) → Nat → List (Nat × Nat)
  | [], _ => []
  | (k, v) :: rest, pid =>
      if k = pid then delSched rest pid else (k, v) :: delSched rest pid

/-- `Scheduler.stop` (base.py lines 879-892): cancel every remaining handle,
clear the table and stop the event loop. -/
def schedStop (s : SchedState) : SchedState :=
  { active_schedules := [],
    cancelled := s.cancelled ++ s.active_schedules.map (fun kv => kv.2),
    loop_stopped := true }

/-- `Scheduler._remove_from_active_schedules` (base.py lines 725-733):
remove the publisher; when the table becomes empty, call `stop()`. -/
def removeFromActiveSchedules (s : SchedState) (pid : Nat) : SchedState :=
  let s1 : SchedState := { s with active_schedules := delSched s.active_schedules pid }
  if s1.active_schedules.length = 0 then schedStop s1 else s1

/-- The `cancel` closure returned by `Scheduler.schedule_periodic` (base.py
lines 739-746) and, identically, by `Scheduler.schedule_recurring` (lines
772-780): look the publisher up in `active_schedules` (a missing entry
raises `ScheduleError`), cancel its handle, and remove it from the table. -/
def schedCancel (s : SchedState) (pid : Nat) : SchedState × Option PyErr :=
  match lookupSched s.active_schedules pid with
  | none => (s, some .scheduleError)
  | some h =>
      let s1 : SchedState := { s with cancelled := s.cancelled ++ [h] }
      (removeFromActiveSchedules s1 pid, none)

theorem lookupTopic_delTopic_self (m : List (String × List Subscription))
    (t : String) : lookupTopic (delTopic m t) t = none := by
  induction m with
  | nil => rfl
  | cons kv rest ih =>
      obtain ⟨k, v⟩ := kv
      by_cases h : k = t
      · simpa [delTopic, h] using ih
      · simpa [delTopic, h, lookupTopic] using ih

theorem lookupTopic_delTopic_ne (m : List (String × List Subscription))
    (t u : String) (h : u ≠ t) :
    lookupTopic (delTopic m t) u = lookupTopic m u := by
  induction m with
  | nil => rfl
  | cons kv rest ih =>
      obtain ⟨k, v⟩ := kv
      by_cases hk : k = t
      · subst hk
        have hku : k ≠ u := fun he => h he.symm
        simpa [delTopic, lookupTopic, hku] using ih
      · by_cases hku : k = u
        · simp [delTopic, hk, lookupTopic, hku, h]
        · simpa [delTopic, hk, lookupTopic, hku] using ih

theorem lookupTopic_setTopic_ne (m : List (String × List Subscription))
    (t : String) (v : List Subscription) (u : String) (h : u ≠ t) :
    lookupTopic (setTopic m t v) u = lookupTopic m u := by
  induction m with
  | nil => rfl
  | cons kv rest ih =>
      obtain ⟨k, w⟩ := kv
      by_cases hk : k = t
      · subst hk
        have hku : k ≠ u := fun he => h he.symm
        simp [setTopic, lookupTopic, hku]
      · by_cases hku : k = u
        · simp [setTopic, hk, lookupTopic, hku, h]
        · simpa [setTopic, hk, lookupTopic, hku] using ih

theorem dispatchNext_state (env : CbEnv) (p : PubState) (x : Int)
    (tp : Option String) : (dispatchNext env p x tp).state = p := by
  simp only [dispatchNext]
  split
  · split <;> rfl
  · split
    · rfl
    · split <;> rfl

theorem closedAt_closeTopic (T t : String) (p : PubState) (h : closedAt T p) :
    closedAt T (closeTopic p t).state := by
  obtain ⟨h1, h2⟩ := h
  constructor
  · show T ∈ (closeTopic p t).state.closed_topics
    have : (closeTopic p t).state.closed_topics = p.closed_topics ++ [t] := by
      simp only [closeTopic]
      split <;> rfl
    rw [this]
    exact List.mem_append_left _ h1
  · show lookupTopic (closeTopic p t).state.subscribers T = none
    have hs : (closeTopic p t).state.subscribers = delTopic p.subscribers t := by
      simp only [closeTopic]
      split <;> rfl
    rw [hs]
    by_cases hT : T = t
    · subst hT; exact lookupTopic_delTopic_self _ _
    · rw [lookupTopic_delTopic_ne _ _ _ hT]; exact h2

theorem closedAt_closeTopic_self (t : String) (p : PubState) :
    closedAt t (closeTopic p t).state := by
  constructor
  · show t ∈ (closeTopic p t).state.closed_topics
    have : (closeTopic p t).state.closed_topics = p.closed_topics ++ [t] := by
      simp only [closeTopic]
      split <;> rfl
    rw [this]
    exact List.mem_append_right _ (List.mem_singleton.mpr rfl)
  · show lookupTopic (closeTopic p t).state.subscribers t = none
    have hs : (closeTopic p t).state.subscribers = delTopic p.subscribers t := by
      simp only [closeTopic]
      split <;> rfl
    rw [hs]
    exact lookupTopic_delTopic_self _ _

theorem subscribe_state_cases (p : PubState) (sub : Subscription) (t : String) :
    (subscribe p sub t).1 = p ∨
    ∃ lst, lookupTopic p.subscribers t = some lst ∧
      (subscribe p sub t).1 =
        { p with subscribers := setTopic p.subscribers t (lst ++ [sub]) } := by
  simp only [subscribe]
  split
  · split
    · next lst heq => exact Or.inr ⟨lst, heq, rfl⟩
    · exact Or.inl rfl
  · exact Or.inl rfl

theorem dispose_state_cases (p : PubState) (t : String) (sub : Subscription) :
    (dispose p t sub).1 = p ∨
    ∃ lst, lookupTopic p.subscribers t = some lst ∧
      (dispose p t sub).1 =
        { p with subscribers := setTopic p.subscribers t (eraseFirst lst sub) } := by
  simp only [dispose]
  split
  · exact Or.inl rfl
  · next lst heq =>
      split
      · exact Or.inr ⟨lst, heq, rfl⟩
      · exact Or.inl rfl

theorem dispatchCompleted_state_cases (env : CbEnv) (p : PubState)
    (tp : Option String) :
    (dispatchCompleted env p tp).state = p ∨
    (dispatchCompleted env p tp).state = (closeTopic p (tp.getD "default")).state := by
  simp only [dispatchCompleted]
  split
  · split <;> exact Or.inl rfl
  · split
    · exact Or.inr rfl
    · split
      · exact Or.inl rfl
      · exact Or.inr rfl

theorem dispatchError_state_cases (env : CbEnv) (p : PubState) (e : PyErr)
    (tp : Option String) :
    (dispatchError env p e tp).state = p ∨
    (dispatchError env p e tp).state = (closeTopic p (tp.getD "default")).state := by
  simp only [dispatchError]
  split
  · split <;> exact Or.inl rfl
  · split
    · exact Or.inr rfl
    · split
      · exact Or.inl rfl
      · exact Or.inr rfl

theorem closedAt_step (T : String) (p : PubState) (op : Op) (h : closedAt T p) :
    closedAt T (step p op) := by
  cases op with
  | subscribeOp sub t =>
      show closedAt T (subscribe p sub t).1
      rcases subscribe_state_cases p sub t with hc | ⟨lst, hl, hc⟩
      · rw [hc]; exact h
      · rw [hc]
        refine ⟨h.1, ?_⟩
        show lookupTopic (setTopic p.subscribers t (lst ++ [sub])) T = none
        by_cases hT : T = t
        · subst hT; rw [h.2] at hl; cases hl
        · rw [lookupTopic_setTopic_ne _ _ _ _ hT]; exact h.2
  | disposeOp t sub =>
      show closedAt T (dispose p t sub).1
      rcases dispose_state_cases p t sub with hc | ⟨lst, hl, hc⟩
      · rw [hc]; exact h
      · rw [hc]
        refine ⟨h.1, ?_⟩
        show lookupTopic (setTopic p.subscribers t (eraseFirst lst sub)) T = none
        by_cases hT : T = t
        · subst hT; rw [h.2] at hl; cases hl
        · rw [lookupTopic_setTopic_ne _ _ _ _ hT]; exact h.2
  | nextOp env x tp =>
      show closedAt T (dispatchNext env p x tp).state
      rw [dispatchNext_state]; exact h
  | completedOp env tp =>
      show closedAt T (dispatchCompleted env p tp).state
      rcases dispatchCompleted_state_cases env p tp with hc | hc <;> rw [hc]
      · exact h
      · exact closedAt_closeTopic T _ p h
  | errorOp env e tp =>
      show closedAt T (dispatchError env p e tp).state
      rcases dispatchError_state_cases env p e tp with hc | hc <;> rw [hc]
      · exact h
      · exact closedAt_closeTopic T _ p h

theorem closedAt_run (T : String) (p : PubState) (ops : List Op)
    (h : closedAt T p) : closedAt T (run p ops) := by
  induction ops generalizing p with
  | nil => exact h
  | cons op rest ih => exact ih (step p op) (closedAt_step T p op h)

theorem dispatchNext_closed (env : CbEnv) (p : PubState) (T : String)
    (x : Int) (h : closedAt T p) :
    (dispatchNext env p x (some T)).err = some PyErr.topicAlreadyClosed := by
  simp [dispatchNext, h.1, h.2]

theorem dispatchCompleted_closed (env : CbEnv) (p : PubState) (T : String)
    (h : closedAt T p) :
    (dispatchCompleted env p (some T)).err = some PyErr.topicAlreadyClosed := by
  simp [dispatchCompleted, h.1, h.2]

theorem dispatchError_closed (env : CbEnv) (p : PubState) (T : String)
    (e : PyErr) (h : closedAt T p) :
    (dispatchError env p e (some T)).err = some PyErr.topicAlreadyClosed := by
  simp [dispatchError, h.1, h.2]

theorem closedAt_dispatchCompleted_of_success (env : CbEnv) (p : PubState)
    (T : String) (h : (dispatchCompleted env p (some T)).err = none) :
    closedAt T (dispatchCompleted env p (some T)).state := by
  rcases hl : lookupTopic p.subscribers T with _ | subs
  · exfalso
    simp only [dispatchCompleted, Option.getD_some, hl] at h
    split at h <;> cases h
  · rcases he : p.enqueue_fn with _ | eid
    · rcases hr : (runCalls env (subs.map (fun s => Call.completed s.on_completed))).2
        with _ | e2
      · have hs : (dispatchCompleted env p (some T)).state
            = (closeTopic p T).state := by
          simp only [dispatchCompleted, Option.getD_some, hl, he, hr]
        rw [hs]
        exact closedAt_closeTopic_self T p
      · exfalso
        simp only [dispatchCompleted, Option.getD_some, hl, he, hr] at h
        cases h
    · have hs : (dispatchCompleted env p (some T)).state
          = (closeTopic p T).state := by
        simp only [dispatchCompleted, Option.getD_some, hl, he]
      rw [hs]
      exact closedAt_closeTopic_self T p

theorem closedAt_dispatchError_of_success (env : CbEnv) (p : PubState)
    (T : String) (e : PyErr)
    (h : (dispatchError env p e (some T)).err = none) :
    closedAt T (dispatchError env p e (some T)).state := by
  rcases hl : lookupTopic p.subscribers T with _ | subs
  · exfalso
    simp only [dispatchError, Option.getD_some, hl] at h
    split at h <;> cases h
  · rcases he : p.enqueue_fn with _ | eid
    · rcases hr : (runCalls env (subs.map (fun s => Call.error s.on_error e))).2
        with _ | e2
      · have hs : (dispatchError env p e (some T)).state
            = (closeTopic p T).state := by
          simp only [dispatchError, Option.getD_some, hl, he, hr]
        rw [hs]
        exact closedAt_closeTopic_self T p
      · exfalso
        simp only [dispatchError, Option.getD_some, hl, he, hr] at h
        cases h
    · have hs : (dispatchError env p e (some T)).state
          = (closeTopic p T).state := by
        simp only [dispatchError, Option.getD_some, hl, he]
      rw [hs]
      exact closedAt_closeTopic_self T p

/-- An environment in which every subscriber callback returns normally. -/
def okEnv : CbEnv :=
  ⟨fun _ _ => none, fun _ => none, fun _ _ => none⟩

/-- A freshly constructed publisher with the single topic "default" and no
subscribers, as built by `Publisher.__init__`. -/
def pW : PubState :=
  ⟨["default"], [("default", [])], [], none, none⟩

/-- C1: for every publisher and topic, once `_dispatch_completed` or
`_dispatch_error` has run on that topic (a terminal event, returning
normally), every later call of `_dispatch_next`, `_dispatch_completed` or
`_dispatch_error` on that (publisher, topic) pair — after any further
sequence of operations on the publisher, and for any event or error
argument — raises the `TopicAlreadyClosed` fatal error. -/
theorem antevents_C1_closed_topic_rejects
    (envT envL : CbEnv) (p : PubState) (T : String) (ops : List Op)
    (x : Int) (e0 e1 : PyErr) :
    ((dispatchCompleted envT p (some T)).err = none →
      ((dispatchNext envL (run (dispatchCompleted envT p (some T)).state ops) x (some T)).err
          = some PyErr.topicAlreadyClosed ∧
       (dispatchCompleted envL (run (dispatchCompleted envT p (some T)).state ops) (some T)).err
          = some PyErr.topicAlreadyClosed ∧
       (dispatchError envL (run (dispatchCompleted envT p (some T)).state ops) e1 (some T)).err
          = some PyErr.topicAlreadyClosed)) ∧
    ((dispatchError envT p e0 (some T)).err = none →
      ((dispatchNext envL (run (dispatchError envT p e0 (some T)).state ops) x (some T)).err
          = some PyErr.topicAlreadyClosed ∧
       (dispatchCompleted envL (run (dispatchError envT p e0 (some T)).state ops) (some T)).err
          = some PyErr.topicAlreadyClosed ∧
       (dispatchError envL (run (dispatchError envT p e0 (some T)).state ops) e1 (some T)).err
          = some PyErr.topicAlreadyClosed)) := by
  constructor
  · intro h
    have hc := closedAt_run T _ ops (closedAt_dispatchCompleted_of_success envT p T h)
    exact ⟨dispatchNext_closed envL _ T x hc, dispatchCompleted_closed envL _ T hc,
           dispatchError_closed envL _ T e1 hc⟩
  · intro h
    have hc := closedAt_run T _ ops (closedAt_dispatchError_of_success envT p T e0 h)
    exact ⟨dispatchNext_closed envL _ T x hc, dispatchCompleted_closed envL _ T hc,
           dispatchError_closed envL _ T e1 hc⟩

/-- Witness for C1: on a fresh publisher, completing the default topic
succeeds, and a subsequent `_dispatch_next` on it raises
`TopicAlreadyClosed`. -/
theorem antevents_C1_witness :
    (dispatchCompleted okEnv pW (some "default")).err = none ∧
    (dispatchNext okEnv (run (dispatchCompleted okEnv pW (some "default")).state []) 7
        (some "default")).err = some PyErr.topicAlreadyClosed :=
  ⟨by decide,
   ((antevents_C1_closed_topic_rejects okEnv okEnv pW "default" [] 7
       (PyErr.otherExc 0) (PyErr.otherExc 0)).1 (by decide)).1⟩

theorem runCalls_all_ok (env : CbEnv) (calls : List Call)
    (h : ∀ c ∈ calls, runCall env c = none) :
    runCalls env calls = (calls, none) := by
  induction calls with
  | nil => rfl
  | cons c rest ih =>
      have hc : runCall env c = none := h c (List.mem_cons_self _ _)
      have hr := ih (fun d hd => h d (List.mem_cons_of_mem _ hd))
      simp [runCalls, hc, hr]

theorem runCalls_first_raise (env : CbEnv) (pre : List Call) (c : Call)
    (post : List Call) (e : PyErr)
    (hpre : ∀ d ∈ pre, runCall env d = none)
    (hc : runCall env c = some e) :
    runCalls env (pre ++ c :: post) =
      (pre ++ [c], some (if isFatal e then e else PyErr.excInDispatch e)) := by
  induction pre with
  | nil => simp [runCalls, hc]
  | cons d ds ih =>
      have hd : runCall env d = none := hpre d (List.mem_cons_self _ _)
      have hds := ih (fun q hq => hpre q (List.mem_cons_of_mem _ hq))
      simp [runCalls, hd, hds]

/-- C2: during inline dispatch (no enqueue function installed),
`_dispatch_next` invokes each subscription's `on_next` callback in
subscription order; when a callback raises a `FatalError` it propagates
unchanged out of `_dispatch_next`, and when a callback raises any other
exception, `_dispatch_next` raises an `ExcInDispatch` fatal error wrapping
it. -/
theorem antevents_C2_inline_dispatch (env : CbEnv) (p : PubState)
    (tp : Option String) (subs : List Subscription) (x : Int)
    (hsub : lookupTopic p.subscribers (tp.getD "default") = some subs)
    (henq : p.enqueue_fn = none) :
    ((∀ s ∈ subs, env.onNext s.on_next x = none) →
      (dispatchNext env p x tp).invoked
          = subs.map (fun s => Call.next s.on_next x) ∧
      (dispatchNext env p x tp).err = none) ∧
    (∀ pre s post e, subs = pre ++ s :: post →
      (∀ q ∈ pre, env.onNext q.on_next x = none) →
      env.onNext s.on_next x = some e →
      (dispatchNext env p x tp).invoked
          = pre.map (fun q => Call.next q.on_next x) ++ [Call.next s.on_next x] ∧
      (dispatchNext env p x tp).err
          = some (if isFatal e then e else PyErr.excInDispatch e)) := by
  constructor
  · intro hok
    by_cases hlen : subs.length = 0
    · have hnil : subs = [] := List.length_eq_zero.mp hlen
      subst hnil
      simp [dispatchNext, hsub]
    · have hr : runCalls env (subs.map (fun s => Call.next s.on_next x))
          = (subs.map (fun s => Call.next s.on_next x), none) := by
        apply runCalls_all_ok
        intro c hcm
        rcases List.mem_map.mp hcm with ⟨s, hsm, rfl⟩
        exact hok s hsm
      exact ⟨by simp [dispatchNext, hsub, hlen, henq, hr],
             by simp [dispatchNext, hsub, hlen, henq, hr]⟩
  · intro pre s post e hsplit hpre hc
    have hlen : ¬ subs.length = 0 := by rw [hsplit]; simp
    have hr : runCalls env (subs.map (fun q => Call.next q.on_next x))
        = (pre.map (fun q => Call.next q.on_next x) ++ [Call.next s.on_next x],
           some (if isFatal e then e else PyErr.excInDispatch e)) := by
      rw [hsplit, List.map_append, List.map_cons]
      refine runCalls_first_raise env _ _ _ e ?_ hc
      intro d hd
      rcases List.mem_map.mp hd with ⟨q, hq, rfl⟩
      exact hpre q hq
    exact ⟨by simp [dispatchNext, hsub, hlen, henq, hr],
           by simp [dispatchNext, hsub, hlen, henq, hr]⟩

/-- A subscription whose callbacks succeed in `raiseEnv`. -/
def subA : Subscription := ⟨0, 1, 2, 100, "default"⟩

/-- A subscription whose `on_next` callback (id 3) raises in `raiseEnv`. -/
def subB : Subscription := ⟨3, 4, 5, 101, "default"⟩

/-- Environment where callback 3 raises the non-fatal exception
`otherExc 7` on `next` and everything else succeeds. -/
def raiseEnv : CbEnv :=
  ⟨fun cb _ => if cb = 3 then some (PyErr.otherExc 7) else none,
   fun _ => none, fun _ _ => none⟩

/-- A publisher with two subscriptions on its default topic. -/
def p2 : PubState := ⟨["default"], [("default", [subA, subB])], [], none, none⟩

/-- Witness for C2: with two subscribers of which the second raises a
non-fatal exception, the inline dispatch invokes both in order and raises
`ExcInDispatch` wrapping the exception. -/
theorem antevents_C2_witness :
    (dispatchNext raiseEnv p2 5 none).invoked
        = [subA].map (fun q => Call.next q.on_next 5) ++ [Call.next subB.on_next 5] ∧
    (dispatchNext raiseEnv p2 5 none).err
        = some (if isFatal (PyErr.otherExc 7) then PyErr.otherExc 7
                else PyErr.excInDispatch (PyErr.otherExc 7)) :=
  (antevents_C2_inline_dispatch raiseEnv p2 none [subA, subB] 5
      (by decide) (by decide)).2
    [subA] subB [] (PyErr.otherExc 7) (by decide) (by decide) (by decide)

/-- C10: during inline dispatch of a `next` event, if the callback of the
subscription at position `i` raises, the subscriptions after position `i`
are not invoked with that event; the failed dispatch raises, leaves the
topic open, and leaves the whole publisher state (subscriber lists,
open-topic set, closed-topic set) unchanged. -/
theorem antevents_C10_failed_dispatch (env : CbEnv) (p : PubState)
    (t : String) (pre : List Subscription) (s : Subscription)
    (post : List Subscription) (x : Int) (e : PyErr)
    (hsub : lookupTopic p.subscribers t = some (pre ++ s :: post))
    (henq : p.enqueue_fn = none)
    (hpre : ∀ q ∈ pre, env.onNext q.on_next x = none)
    (hs : env.onNext s.on_next x = some e) :
    (dispatchNext env p x (some t)).invoked
        = pre.map (fun q => Call.next q.on_next x) ++ [Call.next s.on_next x] ∧
    (dispatchNext env p x (some t)).state = p ∧
    lookupTopic (dispatchNext env p x (some t)).state.subscribers t
        = some (pre ++ s :: post) ∧
    (dispatchNext env p x (some t)).err.isSome = true := by
  have hlen : ¬ (pre ++ s :: post).length = 0 := by simp
  have hr : runCalls env
      (pre.map (fun q => Call.next q.on_next x) ++
        Call.next s.on_next x :: post.map (fun q => Call.next q.on_next x))
      = (pre.map (fun q => Call.next q.on_next x) ++ [Call.next s.on_next x],
         some (if isFatal e then e else PyErr.excInDispatch e)) := by
    refine runCalls_first_raise env _ _ _ e ?_ hs
    intro d hd
    rcases List.mem_map.mp hd with ⟨q, hq, rfl⟩
    exact hpre q hq
  refine ⟨?_, dispatchNext_state env p x (some t), ?_, ?_⟩
  · simp [dispatchNext, hsub, hlen, henq, hr]
  · rw [dispatchNext_state env p x (some t)]; exact hsub
  · simp [dispatchNext, hsub, hlen, henq, hr]

/-- Environment where callback 0 (the `on_next` of `subA`) raises the
non-fatal exception `otherExc 3` and everything else succeeds. -/
def raiseEnvB : CbEnv :=
  ⟨fun cb _ => if cb = 0 then some (PyErr.otherExc 3) else none,
   fun _ => none, fun _ _ => none⟩

/-- Witness for C10: with two subscribers of which the first raises, only
the first is invoked, the state is unchanged and the dispatch raises. -/
theorem antevents_C10_witness :
    (dispatchNext raiseEnvB p2 9 (some "default")).invoked
        = ([] : List Subscription).map (fun q => Call.next q.on_next 9) ++ [Call.next subA.on_next 9] ∧
    (dispatchNext raiseEnvB p2 9 (some "default")).state = p2 ∧
    lookupTopic (dispatchNext raiseEnvB p2 9 (some "default")).state.subscribers "default"
        = some ([] ++ subA :: [subB]) ∧
    (dispatchNext raiseEnvB p2 9 (some "default")).err.isSome = true :=
  antevents_C10_failed_dispatch raiseEnvB p2 "default" [] subA [subB] 9
    (PyErr.otherExc 3) (by decide) (by decide) (by decide) (by decide)

theorem eraseFirst_of_split (a b : List Subscription) (sub : Subscription)
    (ha : sub ∉ a) : eraseFirst (a ++ sub :: b) sub = a ++ b := by
  induction a with
  | nil => simp [eraseFirst]
  | cons q qs ih =>
      have hq : ¬ q = sub := fun he => ha (he ▸ List.mem_cons_self _ _)
      have hqs : sub ∉ qs := fun hm => ha (List.mem_cons_of_mem _ hm)
      simp [eraseFirst, hq, ih hqs]

/-- A publisher with exactly one subscription on its default topic. -/
def p1sub : PubState := ⟨["default"], [("default", [subA])], [], none, none⟩

/-- Counterexample for C3: after a dispose handle has removed its
subscription, calling the same handle again is NOT a silent no-op — the
`list.remove` call inside the closure raises `ValueError`.  This refutes
the claim that the second call "raises nothing". -/
theorem antevents_C3_counterexample :
    (dispose (dispose p1sub "default" subA).1 "default" subA).2
        = some PyErr.valueError := by decide

/-- C3 amended: the dispose handle removes exactly the first occurrence of
its subscription from the topic's subscriber list (leaving everything else
in place), and a second call of the same handle — once the subscription is
no longer present — raises `ValueError` and leaves the subscriber lists
unchanged (rather than being a silent no-op). -/
theorem antevents_C3_dispose_semantics (p : PubState) (t : String)
    (sub : Subscription) (lst : List Subscription)
    (hl : lookupTopic p.subscribers t = some lst) :
    (∀ a b, lst = a ++ sub :: b → sub ∉ a →
      (dispose p t sub).1 =
        { p with subscribers := setTopic p.subscribers t (a ++ b) } ∧
      (dispose p t sub).2 = none) ∧
    (sub ∉ lst →
      (dispose p t sub).1 = p ∧
      (dispose p t sub).2 = some PyErr.valueError) := by
  constructor
  · intro a b hsplit ha
    have hm : sub ∈ lst := by
      rw [hsplit]; exact List.mem_append_right _ (List.mem_cons_self _ _)
    have he : eraseFirst lst sub = a ++ b := by
      rw [hsplit]; exact eraseFirst_of_split a b sub ha
    constructor
    · simp [dispose, hl, hm, he]
    · simp [dispose, hl, hm]
  · intro hm
    exact ⟨by simp [dispose, hl, hm], by simp [dispose, hl, hm]⟩

/-- Witness for C3: on a publisher with one subscription, the first dispose
removes it and raises nothing; the second call of the same handle raises
`ValueError` and leaves the state unchanged. -/
theorem antevents_C3_witness :
    ((dispose p1sub "default" subA).1 =
        { p1sub with subscribers := setTopic p1sub.subscribers "default" ([] ++ []) } ∧
     (dispose p1sub "default" subA).2 = none) ∧
    ((dispose (dispose p1sub "default" subA).1 "default" subA).1
        = (dispose p1sub "default" subA).1 ∧
     (dispose (dispose p1sub "default" subA).1 "default" subA).2
        = some PyErr.valueError) :=
  ⟨(antevents_C3_dispose_semantics p1sub "default" subA [subA]
      (by decide)).1 [] [] (by decide) (by decide),
   (antevents_C3_dispose_semantics (dispose p1sub "default" subA).1 "default"
      subA [] (by decide)).2 (by decide)⟩

theorem closeTopic_fired_hook_none (p : PubState) (t : String)
    (h : (closeTopic p t).hookFired = true) :
    (closeTopic p t).state.unschedule_hook = none ∧
    (closeTopic p t).state.enqueue_fn = none := by
  by_cases hc : delTopic p.subscribers t = [] ∧ p.unschedule_hook.isSome = true
  · simp [closeTopic, hc.1, hc.2]
  · exfalso
    simp [closeTopic, hc] at h

theorem closeTopic_hook_none (p : PubState) (t : String)
    (h : p.unschedule_hook = none) :
    (closeTopic p t).hookFired = false ∧
    (closeTopic p t).state.unschedule_hook = none := by
  constructor <;> simp [closeTopic, h]

theorem dispatchCompleted_hook_cases (env : CbEnv) (p : PubState)
    (tp : Option String) :
    ((dispatchCompleted env p tp).state.unschedule_hook = p.unschedule_hook ∧
     (dispatchCompleted env p tp).hookFired = false) ∨
    ((dispatchCompleted env p tp).state = (closeTopic p (tp.getD "default")).state ∧
     (dispatchCompleted env p tp).hookFired
        = (closeTopic p (tp.getD "default")).hookFired) := by
  simp only [dispatchCompleted]
  split
  · split <;> exact Or.inl ⟨rfl, rfl⟩
  · split
    · exact Or.inr ⟨rfl, rfl⟩
    · split
      · exact Or.inl ⟨rfl, rfl⟩
      · exact Or.inr ⟨rfl, rfl⟩

theorem dispatchError_hook_cases (env : CbEnv) (p : PubState) (e : PyErr)
    (tp : Option String) :
    ((dispatchError env p e tp).state.unschedule_hook = p.unschedule_hook ∧
     (dispatchError env p e tp).hookFired = false) ∨
    ((dispatchError env p e tp).state = (closeTopic p (tp.getD "default")).state ∧
     (dispatchError env p e tp).hookFired
        = (closeTopic p (tp.getD "default")).hookFired) := by
  simp only [dispatchError]
  split
  · split <;> exact Or.inl ⟨rfl, rfl⟩
  · split
    · exact Or.inr ⟨rfl, rfl⟩
    · split
      · exact Or.inl ⟨rfl, rfl⟩
      · exact Or.inr ⟨rfl, rfl⟩

theorem step_hook_none (p : PubState) (op : Op)
    (h : p.unschedule_hook = none) :
    (step p op).unschedule_hook = none ∧ opFired p op = false := by
  cases op with
  | subscribeOp sub t =>
      refine ⟨?_, rfl⟩
      show (subscribe p sub t).1.unschedule_hook = none
      rcases subscribe_state_cases p sub t with hc | ⟨lst, _, hc⟩ <;> rw [hc] <;> exact h
  | disposeOp t sub =>
      refine ⟨?_, rfl⟩
      show (dispose p t sub).1.unschedule_hook = none
      rcases dispose_state_cases p t sub with hc | ⟨lst, _, hc⟩ <;> rw [hc] <;> exact h
  | nextOp env x tp =>
      refine ⟨?_, rfl⟩
      show (dispatchNext env p x tp).state.unschedule_hook = none
      rw [dispatchNext_state]; exact h
  | completedOp env tp =>
      rcases dispatchCompleted_hook_cases env p tp with ⟨h1, h2⟩ | ⟨h1, h2⟩
      · exact ⟨h1.trans h, h2⟩
      · have hk := closeTopic_hook_none p (tp.getD "default") h
        exact ⟨by rw [show (step p (Op.completedOp env tp)) = (dispatchCompleted env p tp).state from rfl, h1]; exact hk.2,
               by rw [show opFired p (Op.completedOp env tp) = (dispatchCompleted env p tp).hookFired from rfl, h2]; exact hk.1⟩
  | errorOp env e tp =>
      rcases dispatchError_hook_cases env p e tp with ⟨h1, h2⟩ | ⟨h1, h2⟩
      · exact ⟨h1.trans h, h2⟩
      · have hk := closeTopic_hook_none p (tp.getD "default") h
        exact ⟨by rw [show (step p (Op.errorOp env e tp)) = (dispatchError env p e tp).state from rfl, h1]; exact hk.2,
               by rw [show opFired p (Op.errorOp env e tp) = (dispatchError env p e tp).hookFired from rfl, h2]; exact hk.1⟩

theorem step_fired_hook_none (p : PubState) (op : Op)
    (h : opFired p op = true) : (step p op).unschedule_hook = none := by
  cases op with
  | subscribeOp sub t => cases h
  | disposeOp t sub => cases h
  | nextOp env x tp => cases h
  | completedOp env tp =>
      rcases dispatchCompleted_hook_cases env p tp with ⟨h1, h2⟩ | ⟨h1, h2⟩
      · rw [show opFired p (Op.completedOp env tp) = (dispatchCompleted env p tp).hookFired from rfl, h2] at h
        cases h
      · have hf : (closeTopic p (tp.getD "default")).hookFired = true := by
          rw [show opFired p (Op.completedOp env tp) = (dispatchCompleted env p tp).hookFired from rfl, h2] at h
          exact h
        rw [show (step p (Op.completedOp env tp)) = (dispatchCompleted env p tp).state from rfl, h1]
        exact (closeTopic_fired_hook_none p _ hf).1
  | errorOp env e tp =>
      rcases dispatchError_hook_cases env p e tp with ⟨h1, h2⟩ | ⟨h1, h2⟩
      · rw [show opFired p (Op.errorOp env e tp) = (dispatchError env p e tp).hookFired from rfl, h2] at h
        cases h
      · have hf : (closeTopic p (tp.getD "default")).hookFired = true := by
          rw [show opFired p (Op.errorOp env e tp) = (dispatchError env p e tp).hookFired from rfl, h2] at h
          exact h
        rw [show (step p (Op.errorOp env e tp)) = (dispatchError env p e tp).state from rfl, h1]
        exact (closeTopic_fired_hook_none p _ hf).1

theorem fires_hook_none (ops : List Op) (p : PubState)
    (h : p.unschedule_hook = none) : fires p ops = 0 := by
  induction ops generalizing p with
  | nil => rfl
  | cons op rest ih =>
      have hs := step_hook_none p op h
      simp [fires, hs.2, ih _ hs.1]

theorem fires_le_one (ops : List Op) (p : PubState) : fires p ops ≤ 1 := by
  induction ops generalizing p with
  | nil => simp [fires]
  | cons op rest ih =>
      by_cases hf : opFired p op = true
      · have h0 := fires_hook_none rest (step p op) (step_fired_hook_none p op hf)
        simp [fires, hf, h0]
      · simpa [fires, hf] using ih (step p op)

/-- C4: across any sequence of subscribe/dispose/dispatch operations on a
publisher, the unschedule hook is invoked at most once; it is invoked
exactly when a `_close_topic` empties the subscriber map while a hook is
installed, and immediately after that invocation both the unschedule-hook
reference and the enqueue-function reference are reset to `None`; a
`_close_topic` that leaves some topic open never invokes the hook. -/
theorem antevents_C4_unschedule_hook_once (p : PubState) (ops : List Op)
    (T : String) :
    fires p ops ≤ 1 ∧
    ((delTopic p.subscribers T).length = 0 → p.unschedule_hook.isSome = true →
      (closeTopic p T).hookFired = true ∧
      (closeTopic p T).state.unschedule_hook = none ∧
      (closeTopic p T).state.enqueue_fn = none) ∧
    (¬ (delTopic p.subscribers T).length = 0 →
      (closeTopic p T).hookFired = false) := by
  refine ⟨fires_le_one ops p, ?_, ?_⟩
  · intro h1 h2
    refine ⟨?_, ?_, ?_⟩ <;> simp [closeTopic, h1, h2]
  · intro h1
    simp [closeTopic, h1]

/-- A publisher with a single open topic, no subscribers, and an installed
unschedule hook and enqueue function (as set by `_schedule`). -/
def pHook : PubState := ⟨["default"], [("default", [])], [], some 42, some 43⟩

/-- Witness for C4: on a publisher with one open topic and an installed
hook, closing that topic fires the hook and clears both references, and no
operation sequence fires it more than once. -/
theorem antevents_C4_witness :
    fires pHook [Op.completedOp okEnv (some "default")] ≤ 1 ∧
    ((closeTopic pHook "default").hookFired = true ∧
     (closeTopic pHook "default").state.unschedule_hook = none ∧
     (closeTopic pHook "default").state.enqueue_fn = none) :=
  ⟨(antevents_C4_unschedule_hook_once pHook [Op.completedOp okEnv (some "default")] "default").1,
   (antevents_C4_unschedule_hook_once pHook [] "default").2.1 (by decide) (by decide)⟩

/-- C5: for a filter constructed with a user `on_next` hook, if the hook
raises a non-fatal exception on an upstream `next` event, the filter
(1) dispatches the error downstream on its default topic, (2) disposes its
upstream subscription, and (3) swallows the exception (raises nothing
inline), provided the downstream error dispatch and the upstream dispose
themselves return normally; if the hook raises a `FatalError`, it
propagates unchanged, with no downstream dispatch and no dispose. -/
theorem antevents_C5_filter_hook_error (env : CbEnv)
    (hook : PubState → PubState × Option PyErr) (fs : FilterState)
    (e : PyErr) (lst : List Subscription)
    (hhook : (hook fs.pub).2 = some e) :
    (isFatal e = false →
      (dispatchError env (hook fs.pub).1 e none).err = none →
      lookupTopic fs.up.subscribers fs.upTopic = some lst →
      fs.upSub ∈ lst →
      (filterOnNext env hook fs).err = none ∧
      (filterOnNext env hook fs).fs.pub
          = (dispatchError env (hook fs.pub).1 e none).state ∧
      (filterOnNext env hook fs).downCalls
          = (dispatchError env (hook fs.pub).1 e none).invoked ∧
      (filterOnNext env hook fs).fs.up.subscribers
          = setTopic fs.up.subscribers fs.upTopic (eraseFirst lst fs.upSub)) ∧
    (isFatal e = true →
      (filterOnNext env hook fs).err = some e ∧
      (filterOnNext env hook fs).downCalls = [] ∧
      (filterOnNext env hook fs).fs.up = fs.up) := by
  obtain ⟨pub1, heq⟩ : ∃ pub1, hook fs.pub = (pub1, some e) :=
    ⟨(hook fs.pub).1, by rw [← hhook, Prod.mk.eta]⟩
  have hp1 : (hook fs.pub).1 = pub1 := by rw [heq]
  constructor
  · intro hnf hderr hup hmem
    rw [hp1] at hderr
    have hdisp1 : (dispose fs.up fs.upTopic fs.upSub).1.subscribers
        = setTopic fs.up.subscribers fs.upTopic (eraseFirst lst fs.upSub) := by
      simp [dispose, hup, hmem]
    have hdisp2 : (dispose fs.up fs.upTopic fs.upSub).2 = none := by
      simp [dispose, hup, hmem]
    refine ⟨?_, ?_, ?_, ?_⟩ <;>
      simp [filterOnNext, heq, hnf, hderr, hp1, hdisp1, hdisp2]
  · intro hf
    refine ⟨?_, ?_, ?_⟩ <;> simp [filterOnNext, heq, hf]

/-- The hook of a filter that always raises the non-fatal `otherExc 1`. -/
def hookW : PubState → PubState × Option PyErr :=
  fun p => (p, some (PyErr.otherExc 1))

/-- A filter state: the filter's own publisher has one downstream
subscription (`subA`) and the filter is subscribed upstream as `subB`. -/
def fsW : FilterState :=
  { pub := ⟨["default"], [("default", [subA])], [], none, none⟩,
    up := ⟨["default"], [("default", [subB])], [], none, none⟩,
    upTopic := "default",
    upSub := subB }

/-- Witness for C5: with a hook raising a non-fatal exception, the filter
dispatches the error downstream, removes its upstream subscription and
raises nothing. -/
theorem antevents_C5_witness :
    (filterOnNext okEnv hookW fsW).err = none ∧
    (filterOnNext okEnv hookW fsW).fs.pub
        = (dispatchError okEnv (hookW fsW.pub).1 (PyErr.otherExc 1) none).state ∧
    (filterOnNext okEnv hookW fsW).downCalls
        = (dispatchError okEnv (hookW fsW.pub).1 (PyErr.otherExc 1) none).invoked ∧
    (filterOnNext okEnv hookW fsW).fs.up.subscribers
        = setTopic fsW.up.subscribers fsW.upTopic (eraseFirst [subB] fsW.upSub) :=
  (antevents_C5_filter_hook_error okEnv hookW fsW (PyErr.otherExc 1) [subB]
      (by decide)).1 (by decide) (by decide) (by decide) (by decide)

theorem runCalls_mem (env : CbEnv) (calls : List Call) (c : Call)
    (h : c ∈ (runCalls env calls).1) : c ∈ calls := by
  induction calls with
  | nil => cases h
  | cons d rest ih =>
      rcases hd : runCall env d with _ | e
      · simp only [runCalls, hd] at h
        rcases List.mem_cons.mp h with h | h
        · exact h ▸ List.mem_cons_self _ _
        · exact List.mem_cons_of_mem _ (ih h)
      · simp only [runCalls, hd] at h
        rcases List.mem_singleton.mp h with rfl
        exact List.mem_cons_self _ _

theorem dispatchCompleted_call_shapes (env : CbEnv) (p : PubState)
    (tp : Option String) :
    (∀ c ∈ (dispatchCompleted env p tp).invoked, ∃ cb, c = Call.completed cb) ∧
    (∀ c ∈ (dispatchCompleted env p tp).enqueued, ∃ cb, c = Call.completed cb) := by
  rcases hl : lookupTopic p.subscribers (tp.getD "default") with _ | subs
  · have hi : (dispatchCompleted env p tp).invoked = [] := by
      simp only [dispatchCompleted, hl]
      split <;> rfl
    have he : (dispatchCompleted env p tp).enqueued = [] := by
      simp only [dispatchCompleted, hl]
      split <;> rfl
    rw [hi, he]
    exact ⟨fun c hc => absurd hc (List.not_mem_nil c),
           fun c hc => absurd hc (List.not_mem_nil c)⟩
  · rcases hq : p.enqueue_fn with _ | eid
    · have hi : (dispatchCompleted env p tp).invoked
          = (runCalls env (subs.map (fun s => Call.completed s.on_completed))).1 := by
        simp only [dispatchCompleted, hl, hq]
        split <;> rfl
      have he : (dispatchCompleted env p tp).enqueued = [] := by
        simp only [dispatchCompleted, hl, hq]
        split <;> rfl
      rw [hi, he]
      constructor
      · intro c hc
        have := runCalls_mem env _ c hc
        rcases List.mem_map.mp this with ⟨s, _, rfl⟩
        exact ⟨s.on_completed, rfl⟩
      · exact fun c hc => absurd hc (List.not_mem_nil c)
    · have hi : (dispatchCompleted env p tp).invoked = [] := by
        simp only [dispatchCompleted, hl, hq]
      have he : (dispatchCompleted env p tp).enqueued
          = subs.map (fun s => Call.completed s.on_completed) := by
        simp only [dispatchCompleted, hl, hq]
      rw [hi, he]
      refine ⟨fun c hc => absurd hc (List.not_mem_nil c), ?_⟩
      intro c hc
      rcases List.mem_map.mp hc with ⟨s, _, rfl⟩
      exact ⟨s.on_completed, rfl⟩

/-- C6: `take(0)` returns `Publisher.empty()`, whose `_observe` performs or
enqueues no `next` call (it emits no events), completes the default topic
immediately and reports that no more data is available; and `take(n)` for
every `n < 0` raises the `ArgumentOutOfRangeException` fatal error without
constructing a filter. -/
theorem antevents_C6_take_boundaries :
    take 0 = Except.ok TakeResult.emptyPub ∧
    (∀ n : Int, n < 0 → take n = Except.error PyErr.argumentOutOfRange) ∧
    (∀ (env : CbEnv) (p : PubState),
      (∀ c ∈ (emptyObserve env p).calls, ∃ cb, c = Call.completed cb) ∧
      (∀ c ∈ (emptyObserve env p).enqueued, ∃ cb, c = Call.completed cb)) ∧
    (∀ (env : CbEnv) (p : PubState),
      (dispatchCompleted env p none).err = none →
      (emptyObserve env p).ret = some false ∧
      closedAt "default" (emptyObserve env p).state) := by
  refine ⟨rfl, ?_, ?_, ?_⟩
  · intro n hn
    simp [take, hn]
  · intro env p
    have hs := dispatchCompleted_call_shapes env p none
    exact ⟨fun c hc => hs.1 c hc, fun c hc => hs.2 c hc⟩
  · intro env p h
    refine ⟨by simp [emptyObserve, h], ?_⟩
    have hc := closedAt_dispatchCompleted_of_success env p "default"
        (by simpa using h)
    have hst : (emptyObserve env p).state = (dispatchCompleted env p none).state := rfl
    rw [hst]
    simpa using hc

/-- Witness for C6: `take(-1)` raises `ArgumentOutOfRangeException`, and the
empty publisher's `_observe` on a fresh publisher completes and reports no
more data. -/
theorem antevents_C6_witness :
    take (-1) = Except.error PyErr.argumentOutOfRange ∧
    ((emptyObserve okEnv pW).ret = some false ∧
     closedAt "default" (emptyObserve okEnv pW).state) :=
  ⟨antevents_C6_take_boundaries.2.1 (-1) (by decide),
   antevents_C6_take_boundaries.2.2.2 okEnv pW (by decide)⟩

/-- The condition of the state-iterated example: `lambda x: x < 10`. -/
def condW : Int → Except PyErr Bool := fun x => Except.ok (decide (x < 10))

/-- The step of the state-iterated example: `lambda x: x + 1`. -/
def iterW : Int → Except PyErr Int := fun x => Except.ok (x + 1)

/-- The projection of the state-iterated example: `lambda x: x`. -/
def selW : Int → Except PyErr Int := fun x => Except.ok x

/-- The initial state of `from_func(0, lambda x: x < 10, lambda x: x + 1,
lambda x: x)` attached to a publisher with one subscription. -/
def fiStart : FIState Int := ⟨p1sub, 0, true⟩

/-- The state after the first `_observe` call. -/
def fiAfter1 : FIState Int := (fiObserve okEnv condW iterW selW fiStart).state

/-- C7 (code bug): on the state-iterated source, the first `_observe` emits
`project(initial)` and returns `True`, and while the condition still holds
a subsequent `_observe` advances the state and emits the projected value —
but it then falls off the end of the function and returns Python `None`
(modelled as `ret = none`) instead of `True` as the claim and the
`_observe` docstring ("Returns True if there is more data") require: the
`return True` statement is missing from the non-first advancing path
(base.py lines 516-520). -/
theorem antevents_C7_missing_return_true :
    (fiObserve okEnv condW iterW selW fiStart).ret = some true ∧
    (fiObserve okEnv condW iterW selW fiStart).calls = [Call.next 0 0] ∧
    (fiObserve okEnv condW iterW selW fiAfter1).calls = [Call.next 0 1] ∧
    (fiObserve okEnv condW iterW selW fiAfter1).err = none ∧
    (fiObserve okEnv condW iterW selW fiAfter1).ret = none ∧
    (fiObserve okEnv condW iterW selW fiAfter1).ret ≠ some true := by decide

theorem lookupSched_delSched_self (m : List (Nat × Nat)) (pid : Nat) :
    lookupSched (delSched m pid) pid = none := by
  induction m with
  | nil => rfl
  | cons kv rest ih =>
      obtain ⟨k, v⟩ := kv
      by_cases h : k = pid
      · simpa [delSched, h] using ih
      · simpa [delSched, h, lookupSched] using ih

theorem lookupSched_remove (s : SchedState) (pid : Nat) :
    lookupSched (removeFromActiveSchedules s pid).active_schedules pid = none := by
  simp only [removeFromActiveSchedules]
  split
  · rfl
  · exact lookupSched_delSched_self _ _

theorem schedCancel_none (s : SchedState) (pid : Nat)
    (h0 : lookupSched s.active_schedules pid = none) :
    schedCancel s pid = (s, some PyErr.scheduleError) := by
  simp [schedCancel, h0]

/-- C8: the `cancel` closure returned by `schedule_periodic` and
`schedule_recurring` removes the publisher's schedule; invoking it for a
publisher with no active schedule raises the `ScheduleError` fatal error,
so a repeated cancellation raises `ScheduleError` while leaving the
scheduler state unchanged (idempotent in effect). -/
theorem antevents_C8_cancel_idempotent (s : SchedState) (pid : Nat) :
    (lookupSched s.active_schedules pid = none →
      schedCancel s pid = (s, some PyErr.scheduleError)) ∧
    (∀ h, lookupSched s.active_schedules pid = some h →
      (schedCancel s pid).2 = none ∧
      lookupSched (schedCancel s pid).1.active_schedules pid = none ∧
      (schedCancel (schedCancel s pid).1 pid).1 = (schedCancel s pid).1 ∧
      (schedCancel (schedCancel s pid).1 pid).2 = some PyErr.scheduleError) := by
  constructor
  · exact schedCancel_none s pid
  · intro h hh
    have h1 : (schedCancel s pid).1
        = removeFromActiveSchedules { s with cancelled := s.cancelled ++ [h] } pid := by
      simp [schedCancel, hh]
    have h2 : lookupSched (schedCancel s pid).1.active_schedules pid = none := by
      rw [h1]
      exact lookupSched_remove _ _
    have h3 := schedCancel_none (schedCancel s pid).1 pid h2
    exact ⟨by simp [schedCancel, hh], h2, by rw [h3], by rw [h3]⟩

/-- A scheduler with one active schedule: publisher 1 with handle 50. -/
def schedW : SchedState := ⟨[(1, 50)], [], false⟩

/-- Witness for C8: cancelling publisher 1 succeeds and removes it; the
second cancellation raises `ScheduleError` and changes nothing. -/
theorem antevents_C8_witness :
    (schedCancel schedW 1).2 = none ∧
    lookupSched (schedCancel schedW 1).1.active_schedules 1 = none ∧
    (schedCancel (schedCancel schedW 1).1 1).1 = (schedCancel schedW 1).1 ∧
    (schedCancel (schedCancel schedW 1).1 1).2 = some PyErr.scheduleError :=
  (antevents_C8_cancel_idempotent schedW 1).2 50 (by decide)

/-- C9: `FunctionIteratorAsPublisher._observe` catches every exception
raised inside its body — by `condition`, the `iterate` step, the
`result_selector`, or by dispatching the event to a subscriber, including
any `FatalError` — and delivers it downstream as an in-band error event via
`_dispatch_error`, returning `False` (provided the error dispatch itself
returns normally).  By contrast, `IterableAsPublisher._observe` re-raises a
`FatalError` coming from its iterable after closing, dispatching nothing. -/
theorem antevents_C9_fi_swallows_all {σ : Type} (env : CbEnv)
    (condition : σ → Except PyErr Bool) (iterate : σ → Except PyErr σ)
    (result_selector : σ → Except PyErr Int) (s : FIState σ) (e : PyErr)
    (hraise : (fiBody env condition iterate result_selector s).err = some e)
    (hdisp : (dispatchError env
        (fiBody env condition iterate result_selector s).state.pub e none).err
        = none) :
    (fiObserve env condition iterate result_selector s).err = none ∧
    (fiObserve env condition iterate result_selector s).ret = some false ∧
    (fiObserve env condition iterate result_selector s).calls
        = (fiBody env condition iterate result_selector s).calls
            ++ (dispatchError env
                  (fiBody env condition iterate result_selector s).state.pub
                  e none).invoked ∧
    (∀ (ef : PyErr) (p : PubState), isFatal ef = true →
        iterObserve env (Except.error ef) p = ⟨p, some ef, none, [], []⟩) := by
  refine ⟨?_, ?_, ?_, ?_⟩
  · simp [fiObserve, hraise, hdisp]
  · simp [fiObserve, hraise, hdisp]
  · simp [fiObserve, hraise, hdisp]
  · intro ef p hf
    have hns : ¬ ef = PyErr.stopIteration := by
      intro he
      subst he
      cases hf
    simp [iterObserve, hns, hf]

/-- A condition function that raises a `FatalError` on every input. -/
def condF : Int → Except PyErr Bool := fun _ => Except.error (PyErr.fatalOther 5)

/-- Witness for C9: with a condition raising a `FatalError`, `_observe` of
the state-iterated source swallows it, dispatches it downstream and returns
`False`, while `_observe` of the iterable source re-raises a concrete
`FatalError` from its iterable. -/
theorem antevents_C9_witness :
    (fiObserve okEnv condF iterW selW fiStart).err = none ∧
    (fiObserve okEnv condF iterW selW fiStart).ret = some false ∧
    (fiObserve okEnv condF iterW selW fiStart).calls
        = (fiBody okEnv condF iterW selW fiStart).calls
            ++ (dispatchError okEnv (fiBody okEnv condF iterW selW fiStart).state.pub
                  (PyErr.fatalOther 5) none).invoked ∧
    iterObserve okEnv (Except.error (PyErr.fatalOther 5)) pW
        = ⟨pW, some (PyErr.fatalOther 5), none, [], []⟩ := by
  have h := antevents_C9_fi_swallows_all okEnv condF iterW selW fiStart
      (PyErr.fatalOther 5) (by decide) (by decide)
  exact ⟨h.1, h.2.1, h.2.2.1, h.2.2.2 (PyErr.fatalOther 5) pW (by decide)⟩

end AntEvents
